import Mathlib

/-!
Verification of the interaction-network builder of
`src/utils/reddit_utils.py` (function `build_interaction_network`).

The embedding models the tabular inputs as lists of records, the
`dict` lookups built with `set_index(...)['author_id'].to_dict()` as
association lists with last-binding-wins lookup, the per-comment
extraction loop as `List.filterMap`, and the pandas `groupby` /
`agg {count, min}` step as a map over the deduplicated key list.
-/

namespace RedditNet

/-- A row of the posts table, restricted to the columns
`build_interaction_network` reads: `post_id` and the nullable
`author_id`. -/
structure Post where
  post_id : String
  author_id : Option String
deriving DecidableEq

/-- A row of the comments table, restricted to the columns
`build_interaction_network` reads. `author_id` is nullable
(deleted authors); `created_utc` is the epoch timestamp. -/
structure Comment where
  comment_id : String
  post_id : String
  author_id : Option String
  parent_id : String
  parent_type : String
  created_utc : Int
deriving DecidableEq

/-- One element of the `interactions` list built by the extraction
loop of `build_interaction_network`. -/
structure RawInteraction where
  from_user_id : String
  to_user_id : String
  interaction_type : String
  timestamp : Int
  comment_id : String
  post_id : String
deriving DecidableEq

/-- A row of the returned `edge_list` DataFrame; exactly the five
columns `from_user_id, to_user_id, interaction_type, weight,
first_interaction`. -/
structure Edge where
  from_user_id : String
  to_user_id : String
  interaction_type : String
  weight : Nat
  first_interaction : Int
deriving DecidableEq

/-- Python `dict.get`: the lookup built by `set_index(...).to_dict()`.
Later bindings of the same key overwrite earlier ones; a missing key
yields `None`, and a key bound to `None` also yields `None` (the two
are indistinguishable through `.get`). -/
def dictGet (pairs : List (String × Option String)) (k : String) : Option String :=
  match pairs.reverse.find? (fun p => p.1 = k) with
  | some p => p.2
  | none => none

/-- The `post_authors` lookup:
`posts_df.set_index('post_id')['author_id'].to_dict()`. -/
def post_authors (posts : List Post) : List (String × Option String) :=
  posts.map (fun p => (p.post_id, p.author_id))

/-- The `comment_authors` lookup:
`comments_df.set_index('comment_id')['author_id'].to_dict()`. -/
def comment_authors (comments : List Comment) : List (String × Option String) :=
  comments.map (fun c => (c.comment_id, c.author_id))

/-- The if/else of the loop body that assigns `to_user` and
`interaction_type` together: the post lookup when
`parent_type == 'post'`, the comment lookup otherwise. -/
def resolveTarget (pa ca : List (String × Option String)) (c : Comment) :
    Option String × String :=
  if c.parent_type = "post" then
    (dictGet pa c.parent_id, "comment_on_post")
  else
    (dictGet ca c.parent_id, "reply_to_comment")

/-- One iteration of the extraction loop of `build_interaction_network`:
skip a null author; resolve the target via `resolveTarget`; emit the
interaction only when `to_user` is truthy (`if to_user and ...` — a
non-`None`, non-empty string in Python) and differs from `from_user`. -/
def extractInteraction (pa ca : List (String × Option String)) (c : Comment) :
    Option RawInteraction :=
  match c.author_id with
  | none => none
  | some from_user =>
    match resolveTarget pa ca c with
    | (some to_user, interaction_type) =>
      if to_user ≠ "" ∧ from_user ≠ to_user then
        some {
          from_user_id := from_user,
          to_user_id := to_user,
          interaction_type := interaction_type,
          timestamp := c.created_utc,
          comment_id := c.comment_id,
          post_id := c.post_id }
      else
        none
    | (none, _) => none

/-- The full extraction pass: the `interactions` list after the
`for _, comment in comments_df.iterrows()` loop. -/
def extract_interactions (comments : List Comment) (posts : List Post) :
    List RawInteraction :=
  comments.filterMap (extractInteraction (post_authors posts) (comment_authors comments))

/-- The grouping key of the aggregation:
`['from_user_id', 'to_user_id', 'interaction_type']`. -/
def interKey (r : RawInteraction) : String × String × String :=
  (r.from_user_id, r.to_user_id, r.interaction_type)

/-- The key triple carried by an output edge. -/
def edgeKey (e : Edge) : String × String × String :=
  (e.from_user_id, e.to_user_id, e.interaction_type)

/-- The members of one `groupby` group: the raw interactions whose key
triple equals `k`. -/
def groupOf (raws : List RawInteraction) (k : String × String × String) :
    List RawInteraction :=
  raws.filter (fun r => decide (interKey r = k))

/-- Minimum timestamp of a group (`'timestamp': 'min'`); the `[]` case
never arises for a `groupby` group. -/
def minTimestamp : List RawInteraction → Int
  | [] => 0
  | r :: rs => rs.foldl (fun m x => min m x.timestamp) r.timestamp

/-- One aggregated row of `edge_list`: the group size becomes `weight`
(`'comment_id': 'count'`; `comment_id` is never null) and the minimum
timestamp becomes `first_interaction`. -/
def mkEdge (raws : List RawInteraction) (k : String × String × String) : Edge :=
  { from_user_id := k.1,
    to_user_id := k.2.1,
    interaction_type := k.2.2,
    weight := (groupOf raws k).length,
    first_interaction := minTimestamp (groupOf raws k) }

/-- The aggregation step: `if len(interactions_df) > 0` then group by
the key triple and aggregate, else return the empty DataFrame with the
five-column schema (here: the empty `List Edge`). -/
def aggregate_edges (raws : List RawInteraction) : List Edge :=
  if raws.length > 0 then
    ((raws.map interKey).dedup).map (mkEdge raws)
  else
    []

/-- The function `build_interaction_network(comments_df, posts_df)`:
extraction followed by aggregation. -/
def build_interaction_network (comments : List Comment) (posts : List Post) :
    List Edge :=
  aggregate_edges (extract_interactions comments posts)

/-- The concrete scenario of spec §8. -/
def wPosts : List Post := [⟨"p1", some "u1"⟩]

/-- First comment of the spec §8 scenario: u2 comments on post p1. -/
def wComment1 : Comment := ⟨"c1", "p1", some "u2", "p1", "post", 100⟩

/-- Second comment of the spec §8 scenario: u3 replies to comment c1. -/
def wComment2 : Comment := ⟨"c2", "p1", some "u3", "c1", "comment", 200⟩

/-- Third comment of the spec §8 scenario: u1 replies to their own post. -/
def wComment3 : Comment := ⟨"c3", "p1", some "u1", "p1", "post", 300⟩

/-- Comments of the concrete scenario of spec §8. -/
def wComments : List Comment := [wComment1, wComment2, wComment3]

/-- The raw interaction extracted from `wComment1`. -/
def wRaw1 : RawInteraction := ⟨"u2", "u1", "comment_on_post", 100, "c1", "p1"⟩

/-- A comment with a deleted (null) author. -/
def wNullComment : Comment := ⟨"c9", "p1", none, "p1", "post", 400⟩

/-- The first expected edge of the scenario. -/
def wEdge1 : Edge :=
  { from_user_id := "u2", to_user_id := "u1",
    interaction_type := "comment_on_post", weight := 1, first_interaction := 100 }

/-- The second expected edge of the scenario. -/
def wEdge2 : Edge :=
  { from_user_id := "u3", to_user_id := "u2",
    interaction_type := "reply_to_comment", weight := 1, first_interaction := 200 }

/-- Evaluation of the spec §8 scenario: exactly the two expected edges,
in grouping order; the self-reply comment `wComment3` yields no edge. -/
theorem scenario_network_eval :
    build_interaction_network wComments wPosts = [wEdge1, wEdge2] := by decide

/-- The running minimum in `List.foldl min` never exceeds its seed. -/
theorem foldl_min_le_init (rs : List RawInteraction) (a : Int) :
    rs.foldl (fun m x => min m x.timestamp) a ≤ a := by
  induction rs generalizing a with
  | nil => exact le_refl a
  | cons x xs ih =>
    exact le_trans (ih (min a x.timestamp)) (min_le_left _ _)

/-- The running minimum is a lower bound on every traversed timestamp. -/
theorem foldl_min_le_mem (rs : List RawInteraction) (a : Int)
    (r : RawInteraction) (hr : r ∈ rs) :
    rs.foldl (fun m x => min m x.timestamp) a ≤ r.timestamp := by
  induction rs generalizing a with
  | nil => cases hr
  | cons x xs ih =>
    rcases List.mem_cons.mp hr with h | h
    · subst h
      exact le_trans (foldl_min_le_init xs (min a r.timestamp)) (min_le_right _ _)
    · exact ih (min a x.timestamp) h

/-- The running minimum is attained: it is the seed or some traversed
timestamp. -/
theorem foldl_min_eq_init_or_mem (rs : List RawInteraction) (a : Int) :
    rs.foldl (fun m x => min m x.timestamp) a = a ∨
      ∃ r ∈ rs, rs.foldl (fun m x => min m x.timestamp) a = r.timestamp := by
  induction rs generalizing a with
  | nil => exact Or.inl rfl
  | cons x xs ih =>
    rcases ih (min a x.timestamp) with h | ⟨r, hr, h⟩
    · rcases min_cases a x.timestamp with ⟨hm, _⟩ | ⟨hm, _⟩
      · exact Or.inl (by simpa [hm] using h)
      · exact Or.inr ⟨x, List.mem_cons_self x xs, by simpa [hm] using h⟩
    · exact Or.inr ⟨r, List.mem_cons_of_mem x hr, h⟩

/-- On a non-empty list, `minTimestamp` is attained by a member. -/
theorem minTimestamp_mem (raws : List RawInteraction) (h : raws ≠ []) :
    ∃ r ∈ raws, r.timestamp = minTimestamp raws := by
  cases raws with
  | nil => exact absurd rfl h
  | cons x xs =>
    rcases foldl_min_eq_init_or_mem xs x.timestamp with h0 | ⟨r, hr, h0⟩
    · exact ⟨x, List.mem_cons_self x xs, by simpa [minTimestamp] using h0.symm⟩
    · exact ⟨r, List.mem_cons_of_mem x hr, by simpa [minTimestamp] using h0.symm⟩

/-- The value of `minTimestamp` is a lower bound on the timestamps of
a non-empty list. -/
theorem minTimestamp_le (raws : List RawInteraction)
    (r : RawInteraction) (hr : r ∈ raws) :
    minTimestamp raws ≤ r.timestamp := by
  cases raws with
  | nil => cases hr
  | cons x xs =>
    rcases List.mem_cons.mp hr with h | h
    · subst h
      simpa [minTimestamp] using foldl_min_le_init xs r.timestamp
    · simpa [minTimestamp] using foldl_min_le_mem xs x.timestamp r h

/-- Membership in a group unfolds to membership plus key equality. -/
theorem mem_groupOf (raws : List RawInteraction) (k : String × String × String)
    (r : RawInteraction) :
    r ∈ groupOf raws k ↔ r ∈ raws ∧ interKey r = k := by
  simp [groupOf, List.mem_filter]

/-- A group whose key occurs among the interactions is non-empty. -/
theorem groupOf_ne_nil (raws : List RawInteraction)
    (k : String × String × String) (hk : k ∈ (raws.map interKey).dedup) :
    groupOf raws k ≠ [] := by
  rcases List.mem_map.mp (List.mem_dedup.mp hk) with ⟨r, hr, hrk⟩
  intro hnil
  have : r ∈ groupOf raws k := (mem_groupOf raws k r).mpr ⟨hr, hrk⟩
  simp [hnil] at this

/-- The key triple of an aggregated edge is its grouping key. -/
theorem edgeKey_mkEdge (raws : List RawInteraction)
    (k : String × String × String) :
    edgeKey (mkEdge raws k) = k := by
  obtain ⟨a, b, c⟩ := k
  rfl

/-- Unfolding of `resolveTarget` on a comment replying to a post. -/
theorem resolveTarget_post (pa ca : List (String × Option String)) (c : Comment)
    (hp : c.parent_type = "post") :
    resolveTarget pa ca c = (dictGet pa c.parent_id, "comment_on_post") := by
  simp [resolveTarget, hp]

/-- Unfolding of `resolveTarget` on a comment replying to a comment. -/
theorem resolveTarget_not_post (pa ca : List (String × Option String)) (c : Comment)
    (hp : c.parent_type ≠ "post") :
    resolveTarget pa ca c = (dictGet ca c.parent_id, "reply_to_comment") := by
  simp [resolveTarget, hp]

/-- The resolved author is the lookup selected by `parent_type`. -/
theorem resolveTarget_fst (pa ca : List (String × Option String)) (c : Comment) :
    (resolveTarget pa ca c).1 =
      if c.parent_type = "post" then dictGet pa c.parent_id
      else dictGet ca c.parent_id := by
  unfold resolveTarget
  by_cases hp : c.parent_type = "post" <;> simp [hp]

/-- Characterization of a successful extraction: the emitted record's
fields come from the comment, the resolved target is truthy, and the
self-interaction filter passed. -/
theorem extractInteraction_some_spec (pa ca : List (String × Option String))
    (c : Comment) (r : RawInteraction)
    (hr : extractInteraction pa ca c = some r) :
    c.author_id = some r.from_user_id ∧
    (resolveTarget pa ca c).1 = some r.to_user_id ∧
    (resolveTarget pa ca c).2 = r.interaction_type ∧
    r.to_user_id ≠ "" ∧
    r.from_user_id ≠ r.to_user_id ∧
    r.timestamp = c.created_utc ∧
    r.comment_id = c.comment_id ∧
    r.post_id = c.post_id := by
  unfold extractInteraction at hr
  split at hr
  · cases hr
  · rename_i from_user hA
    split at hr
    · rename_i to_user itype hres
      split at hr
      · rename_i hc
        injection hr with h
        subst h
        exact ⟨hA, by rw [hres], by rw [hres], hc.1, hc.2, rfl, rfl, rfl⟩
      · cases hr
    · cases hr

/-- The output edges are exactly the aggregations of the deduplicated
keys of the extracted interactions. -/
theorem mem_aggregate_iff (raws : List RawInteraction) (e : Edge) :
    e ∈ aggregate_edges raws ↔
      ∃ k ∈ (raws.map interKey).dedup, mkEdge raws k = e := by
  unfold aggregate_edges
  by_cases h : raws.length > 0
  · simp [h, List.mem_map]
  · have hnil : raws = [] := List.length_eq_zero.mp (Nat.eq_zero_of_not_pos h)
    subst hnil
    simp

/-- The length of a `filterMap` is the number of elements the function
keeps. -/
theorem length_filterMap_eq_countP {α β : Type} (f : α → Option β) (l : List α) :
    (l.filterMap f).length = l.countP (fun a => (f a).isSome) := by
  induction l with
  | nil => rfl
  | cons x xs ih =>
    cases hx : f x <;> simp [List.filterMap_cons, List.countP_cons, hx, ih]

/-- Claim C1: every output edge of `build_interaction_network` has
`weight` equal to the number of extracted raw interactions whose
(from, to, type) triple matches the edge's key, and `first_interaction`
equal to the minimum timestamp over that same set (it is attained by a
member and is a lower bound). -/
theorem edge_weight_count_and_first_interaction_min
    (comments : List Comment) (posts : List Post) (e : Edge)
    (he : e ∈ build_interaction_network comments posts) :
    e.weight = (groupOf (extract_interactions comments posts) (edgeKey e)).length ∧
    (∃ r ∈ groupOf (extract_interactions comments posts) (edgeKey e),
        r.timestamp = e.first_interaction) ∧
    (∀ r ∈ groupOf (extract_interactions comments posts) (edgeKey e),
        e.first_interaction ≤ r.timestamp) := by
  unfold build_interaction_network at he
  rcases (mem_aggregate_iff _ e).mp he with ⟨k, hk, hke⟩
  subst hke
  rw [edgeKey_mkEdge]
  refine ⟨rfl, ?_, ?_⟩
  · exact minTimestamp_mem _ (groupOf_ne_nil _ k hk)
  · intro r hr
    exact minTimestamp_le _ r hr

/-- Witness for C1, on the concrete scenario of spec §8. -/
theorem edge_weight_count_and_first_interaction_min_witness :
    wEdge1 ∈ build_interaction_network wComments wPosts ∧
    (wEdge1.weight
        = (groupOf (extract_interactions wComments wPosts) (edgeKey wEdge1)).length ∧
      (∃ r ∈ groupOf (extract_interactions wComments wPosts) (edgeKey wEdge1),
          r.timestamp = wEdge1.first_interaction) ∧
      (∀ r ∈ groupOf (extract_interactions wComments wPosts) (edgeKey wEdge1),
          wEdge1.first_interaction ≤ r.timestamp)) :=
  ⟨by decide,
   edge_weight_count_and_first_interaction_min wComments wPosts wEdge1 (by decide)⟩

/-- Claim C2: an emitted interaction's target author was resolved via
the post-author lookup with type `comment_on_post` when
`parent_type = 'post'`, and via the comment-author lookup with type
`reply_to_comment` otherwise. -/
theorem reply_target_resolution (pa ca : List (String × Option String))
    (c : Comment) (r : RawInteraction)
    (hr : extractInteraction pa ca c = some r) :
    (c.parent_type = "post" →
      dictGet pa c.parent_id = some r.to_user_id ∧
      r.interaction_type = "comment_on_post") ∧
    (c.parent_type ≠ "post" →
      dictGet ca c.parent_id = some r.to_user_id ∧
      r.interaction_type = "reply_to_comment") := by
  obtain ⟨-, h1, h2, -, -, -, -, -⟩ := extractInteraction_some_spec pa ca c r hr
  constructor
  · intro hp
    rw [resolveTarget_post pa ca c hp] at h1 h2
    exact ⟨h1, h2.symm⟩
  · intro hp
    rw [resolveTarget_not_post pa ca c hp] at h1 h2
    exact ⟨h1, h2.symm⟩

/-- Witness for C2, on the first comment of the spec §8 scenario. -/
theorem reply_target_resolution_witness :
    (wComment1.parent_type = "post" →
      dictGet (post_authors wPosts) wComment1.parent_id = some wRaw1.to_user_id ∧
      wRaw1.interaction_type = "comment_on_post") ∧
    (wComment1.parent_type ≠ "post" →
      dictGet (comment_authors wComments) wComment1.parent_id = some wRaw1.to_user_id ∧
      wRaw1.interaction_type = "reply_to_comment") :=
  reply_target_resolution (post_authors wPosts) (comment_authors wComments)
    wComment1 wRaw1 (by decide)

/-- Claim C3: no raw interaction and no output edge is a self-loop:
`from_user_id` differs from `to_user_id` everywhere. -/
theorem no_self_interactions (comments : List Comment) (posts : List Post) :
    (∀ r ∈ extract_interactions comments posts,
       r.from_user_id ≠ r.to_user_id) ∧
    (∀ e ∈ build_interaction_network comments posts,
       e.from_user_id ≠ e.to_user_id) := by
  have hraw : ∀ r ∈ extract_interactions comments posts,
      r.from_user_id ≠ r.to_user_id := by
    intro r hrr
    unfold extract_interactions at hrr
    rcases List.mem_filterMap.mp hrr with ⟨c, _, hc⟩
    exact (extractInteraction_some_spec _ _ c r hc).2.2.2.2.1
  refine ⟨hraw, ?_⟩
  intro e he
  unfold build_interaction_network at he
  rcases (mem_aggregate_iff _ e).mp he with ⟨k, hk, hke⟩
  rcases List.mem_map.mp (List.mem_dedup.mp hk) with ⟨r, hr, hrk⟩
  subst hke
  intro hEq
  apply hraw r hr
  have h1 : r.from_user_id = k.1 := by rw [← hrk]; rfl
  have h2 : r.to_user_id = k.2.1 := by rw [← hrk]; rfl
  rw [h1, h2]
  exact hEq

/-- Witness for C3, on the concrete scenario of spec §8. -/
theorem no_self_interactions_witness :
    wRaw1.from_user_id ≠ wRaw1.to_user_id ∧
    wEdge1.from_user_id ≠ wEdge1.to_user_id :=
  ⟨(no_self_interactions wComments wPosts).1 wRaw1 (by decide),
   (no_self_interactions wComments wPosts).2 wEdge1 (by decide)⟩

/-- Claim C4: a comment with a null author is skipped by the extractor,
and conversely every extracted interaction originates from a comment
with a known author — so null-author comments contribute to no edge. -/
theorem null_author_comment_skipped (comments : List Comment) (posts : List Post) :
    (∀ c ∈ comments, c.author_id = none →
      extractInteraction (post_authors posts) (comment_authors comments) c = none) ∧
    (∀ r ∈ extract_interactions comments posts,
      ∃ c ∈ comments,
        extractInteraction (post_authors posts) (comment_authors comments) c = some r ∧
        c.author_id = some r.from_user_id) := by
  constructor
  · intro c _ hA
    unfold extractInteraction
    rw [hA]
  · intro r hrr
    unfold extract_interactions at hrr
    rcases List.mem_filterMap.mp hrr with ⟨c, hcm, hc⟩
    exact ⟨c, hcm, hc, (extractInteraction_some_spec _ _ c r hc).1⟩

/-- Witness for C4, on a deleted-author comment and on the first raw
interaction of the spec §8 scenario. -/
theorem null_author_comment_skipped_witness :
    extractInteraction (post_authors wPosts) (comment_authors [wNullComment])
      wNullComment = none ∧
    ∃ c ∈ wComments,
      extractInteraction (post_authors wPosts) (comment_authors wComments) c
        = some wRaw1 ∧
      c.author_id = some wRaw1.from_user_id :=
  ⟨(null_author_comment_skipped [wNullComment] wPosts).1 wNullComment
      (by decide) (by decide),
   (null_author_comment_skipped wComments wPosts).2 wRaw1 (by decide)⟩

/-- Claim C5: when the selected lookup cannot resolve the target author
(parent absent, or parent author null — `dict.get` yields `None` in
both cases), the extractor emits nothing; the function is total, so no
error is raised. -/
theorem unresolved_target_skipped (pa ca : List (String × Option String))
    (c : Comment)
    (h : (if c.parent_type = "post" then dictGet pa c.parent_id
          else dictGet ca c.parent_id) = none) :
    extractInteraction pa ca c = none := by
  cases hx : extractInteraction pa ca c with
  | none => rfl
  | some r =>
    have h1 := (extractInteraction_some_spec pa ca c r hx).2.1
    rw [resolveTarget_fst, h] at h1
    cases h1

/-- Witness for C5: a reply to a comment that is absent from the
comment-author lookup. -/
theorem unresolved_target_skipped_witness :
    extractInteraction (post_authors wPosts) (comment_authors [wComment2])
      wComment2 = none :=
  unresolved_target_skipped (post_authors wPosts) (comment_authors [wComment2])
    wComment2 (by decide)

/-- Claim C6: empty comments give an empty extraction and an empty edge
list, and more generally an empty extraction gives the empty edge list
of type `List Edge` (the five-column schema), not an error or an absent
value. -/
theorem empty_interactions_empty_edges (posts : List Post) :
    extract_interactions [] posts = [] ∧
    build_interaction_network [] posts = [] ∧
    (∀ comments, extract_interactions comments posts = [] →
      build_interaction_network comments posts = []) := by
  refine ⟨rfl, rfl, ?_⟩
  intro comments h
  unfold build_interaction_network
  rw [h]
  rfl

/-- Witness for C6: a lone deleted-author comment extracts to nothing,
so the network is the empty edge list. -/
theorem empty_interactions_empty_edges_witness :
    build_interaction_network [wNullComment] wPosts = [] :=
  (empty_interactions_empty_edges wPosts).2.2 [wNullComment] (by decide)

/-- Claim C7: the (from, to, type) key triples of the output edges are
pairwise distinct: at most one edge per triple. -/
theorem edge_key_unique (comments : List Comment) (posts : List Post) :
    ((build_interaction_network comments posts).map edgeKey).Nodup := by
  unfold build_interaction_network aggregate_edges
  by_cases h : (extract_interactions comments posts).length > 0
  · rw [if_pos h, List.map_map]
    have hcomp : (edgeKey ∘ mkEdge (extract_interactions comments posts)) = id := by
      funext k
      exact edgeKey_mkEdge _ k
    rw [hcomp, List.map_id]
    exact List.nodup_dedup _
  · rw [if_neg h]
    exact List.nodup_nil

/-- Claim C8: every output edge has weight at least 1. -/
theorem edge_weight_at_least_one (comments : List Comment) (posts : List Post)
    (e : Edge) (he : e ∈ build_interaction_network comments posts) :
    1 ≤ e.weight := by
  unfold build_interaction_network at he
  rcases (mem_aggregate_iff _ e).mp he with ⟨k, hk, hke⟩
  subst hke
  exact List.length_pos.mpr (groupOf_ne_nil _ k hk)

/-- Witness for C8, on the concrete scenario of spec §8. -/
theorem edge_weight_at_least_one_witness : 1 ≤ wEdge1.weight :=
  edge_weight_at_least_one wComments wPosts wEdge1 (by decide)

/-- Claim C9: `build_interaction_network` is deterministic — equal
inputs give equal (hence identical as sets) edge lists. -/
theorem network_deterministic (c1 c2 : List Comment) (p1 p2 : List Post)
    (h1 : c1 = c2) (h2 : p1 = p2) :
    build_interaction_network c1 p1 = build_interaction_network c2 p2 := by
  rw [h1, h2]

/-- Witness for C9, two runs on the spec §8 scenario. -/
theorem network_deterministic_witness :
    build_interaction_network wComments wPosts
      = build_interaction_network wComments wPosts :=
  network_deterministic wComments wComments wPosts wPosts rfl rfl

/-- Claim C10: the total edge weight equals the number of extracted raw
interactions, which is the number of comments passing every extraction
filter. -/
theorem weight_sum_eq_interaction_count (comments : List Comment)
    (posts : List Post) :
    ((build_interaction_network comments posts).map Edge.weight).sum
      = (extract_interactions comments posts).length ∧
    (extract_interactions comments posts).length
      = comments.countP
          (fun c => (extractInteraction (post_authors posts)
              (comment_authors comments) c).isSome) := by
  constructor
  · unfold build_interaction_network aggregate_edges
    by_cases h : (extract_interactions comments posts).length > 0
    · rw [if_pos h, List.map_map]
      refine Eq.trans ?_ ((List.sum_map_count_dedup_eq_length
        ((extract_interactions comments posts).map interKey)).trans
          (List.length_map _ _))
      refine congrArg List.sum (List.map_congr_left ?_)
      intro k _
      show (groupOf (extract_interactions comments posts) k).length = _
      unfold groupOf
      rw [← List.countP_eq_length_filter]
      show List.countP (fun r => decide (interKey r = k))
            (extract_interactions comments posts)
          = List.countP (fun x => decide (x = k))
            ((extract_interactions comments posts).map interKey)
      rw [List.countP_map]
      rfl
    · rw [if_neg h]
      simp only [List.map_nil, List.sum_nil]
      omega
  · unfold extract_interactions
    exact length_filterMap_eq_countP _ comments

end RedditNet
